import Mathlib

/-!
Verification of the moonblokz telemetry hub core (src/src/lib.rs).

The Rust component stores log records and command records in a SQLite
database and a throttle timestamp plus a tracked maximum upload interval
in a key-value store.  This file gives a shallow embedding of the data
model and of the database / key-value / handler operations, and proves
the specified properties about them.

Modelling conventions used throughout:

* SQLite TEXT comparison (BINARY collation, a byte-wise memcmp on UTF-8)
  is modelled by lexicographic comparison of the character lists of the
  stored strings; on valid UTF-8, byte order and code-point order agree.
* Wall-clock instants are integers (seconds).  RFC3339 rendering of a
  server instant is kept abstract: functions receive the rendered cutoff
  string as a parameter, because all the code ever does with it is hand
  it to SQLite for a raw string comparison.
* The key-value store cells hold either nothing, a value parsed from the
  stored bytes, bytes that fail to parse, or a read error, mirroring the
  match arms of the Rust accessors.
* The command column stores serde-serialized JSON of the Command struct;
  serialization round-trips, so the column is modelled as either a
  well-formed envelope (which re-parses to itself) or malformed text
  (which fails to parse).
* Statement failures of the opaque stores are modelled only where a claim
  needs them: log insertion takes an oracle saying which INSERT statements
  succeed, mirroring the per-statement autocommit of the source loop.
-/

namespace TelemetryHub

/-- Lexicographic comparison of character lists by code point, the order
SQLite BINARY collation gives on valid UTF-8 text. -/
def strLtL : List Char → List Char → Bool
  | [], [] => false
  | [], _ :: _ => true
  | _ :: _, [] => false
  | a :: as, b :: bs =>
    if a.toNat < b.toNat then true
    else if b.toNat < a.toNat then false
    else strLtL as bs

/-- Comparison of two TEXT values as SQLite performs it for the
conditions timestamp < cutoff of the source queries. -/
def strLt (a b : String) : Bool := strLtL a.data b.data

/-- MAX_LOG_ITEMS_PER_DOWNLOAD from the source. -/
def MAX_LOG_ITEMS_PER_DOWNLOAD : Nat := 10000

/-- DEFAULT_UPLOAD_INTERVAL_SECONDS from the source. -/
def DEFAULT_UPLOAD_INTERVAL_SECONDS : Int := 300

/-- DEFAULT_CLEANUP_INTERVAL_MINUTES from the source. -/
def DEFAULT_CLEANUP_INTERVAL_MINUTES : Int := 5

/-- DEFAULT_DELETE_TIMEOUT_MINUTES from the source. -/
def DEFAULT_DELETE_TIMEOUT_MINUTES : Int := 30

/-- One row of the log_messages table. -/
structure LogRow where
  id : Int
  timestamp : String
  node_id : Int
  message : String
deriving DecidableEq, Repr

/-- The log_messages table: its rows together with the AUTOINCREMENT
counter that assigns the next surrogate id. -/
structure LogDb where
  rows : List LogRow
  next : Int
deriving DecidableEq, Repr

/-- One element of the uploaded logs array (struct LogEntry). -/
structure LogEntry where
  timestamp : String
  message : String
deriving DecidableEq, Repr

/-- One element of the download response (struct DownloadLogEntry). -/
structure DownloadLogEntry where
  item_id : Int
  timestamp : String
  node_id : Int
  message : String
deriving DecidableEq, Repr

/-- The ORDER BY timestamp ASC, id ASC comparison of the download query. -/
def downloadLe (a b : LogRow) : Bool :=
  if strLt a.timestamp b.timestamp then true
  else if strLt b.timestamp a.timestamp then false
  else a.id ≤ b.id

/-- Row filter of the download query: id > last_id AND timestamp < cutoff. -/
def downloadSel (last_id : Int) (cutoff_str : String) (r : LogRow) : Bool :=
  (last_id < r.id) && strLt r.timestamp cutoff_str

/-- Function get_logs_for_download of the source: SELECT the rows with
id > last_id AND timestamp < cutoff, ORDER BY timestamp ASC, id ASC,
LIMIT 10000, and map each row to a DownloadLogEntry.  The cutoff string
parameter stands for the RFC3339 rendering of
now - seconds(max_upload_interval * 1.1) computed by the caller. -/
def get_logs_for_download (rows : List LogRow) (last_id : Int) (cutoff_str : String) :
    List DownloadLogEntry :=
  ((((rows.filter (downloadSel last_id cutoff_str)).mergeSort downloadLe).take
      MAX_LOG_ITEMS_PER_DOWNLOAD).map
    (fun r => ⟨r.id, r.timestamp, r.node_id, r.message⟩))

/-- Insertion of a single row by the INSERT statement of
insert_log_messages: the row gets the next AUTOINCREMENT id. -/
def insert_log (db : LogDb) (node_id : Int) (l : LogEntry) : LogDb :=
  { rows := db.rows ++ [⟨db.next, l.timestamp, node_id, l.message⟩], next := db.next + 1 }

/-- Function insert_log_messages of the source.  Each loop iteration runs
one INSERT statement; insOk says whether that statement succeeds (the
store is opaque and may fail).  On the first failing statement the ? in
the loop aborts: the function returns the rows committed so far and
false.  There is no surrounding transaction, so committed rows stay. -/
def insert_log_messages (insOk : LogEntry → Bool) (db : LogDb) (node_id : Int) :
    List LogEntry → LogDb × Bool
  | [] => (db, true)
  | l :: ls =>
    if insOk l then insert_log_messages insOk (insert_log db node_id l) node_id ls
    else (db, false)

/-- Function get_all_node_ids of the source:
SELECT DISTINCT node_id FROM log_messages ORDER BY node_id. -/
def get_all_node_ids (rows : List LogRow) : List Int :=
  ((rows.map LogRow.node_id).dedup).mergeSort (fun a b => a ≤ b)

/-- Raw JSON value under one key of the parameters object, as the source
observes it: key absent, key present with a value as_i64 accepts
(intVal), or key present with any other value (otherVal). -/
inductive JsonField where
  | absent
  | intVal (n : Int)
  | otherVal
deriving DecidableEq, Repr

/-- The as_i64 conversion the source applies to an extracted value. -/
def JsonField.as_i64 : JsonField → Option Int
  | .intVal n => some n
  | _ => none

/-- Option::or_else on the raw get results: a present value of either
shape wins over the fallback key. -/
def JsonField.or : JsonField → JsonField → JsonField
  | .absent, b => b
  | .intVal n, _ => .intVal n
  | .otherVal, _ => .otherVal

/-- Fields the source extracts from the parameters JSON object.  The two
node-id keys are kept as raw values because the source chains
get("node_id").or_else(get("node id")) before applying as_i64 once to
the winner; active_period and inactive_period are per-key
get(key).and_then(as_i64) results, so Option Int is faithful there. -/
structure CmdParams where
  node_id : JsonField
  node_id_spaced : JsonField
  active_period : Option Int
  inactive_period : Option Int
deriving DecidableEq, Repr

/-- Struct Command of the source: the envelope serialized into the
command column and returned to probes. -/
structure Command where
  command : String
  parameters : Option CmdParams
deriving DecidableEq, Repr

/-- Content of the TEXT command column.  The dispatcher always stores
serde_json::to_string of a Command, which parses back to the same value;
any other text fails to parse.  ofCommand c stands for the serialization
of c, malformed s for text that does not parse as a Command. -/
inductive CmdText where
  | ofCommand (c : Command)
  | malformed (s : String)
deriving DecidableEq, Repr

/-- The serde_json::from_str::\<Command\> call of get_and_delete_commands. -/
def parseCommand : CmdText → Option Command
  | .ofCommand c => some c
  | .malformed _ => none

/-- One row of the commands table. -/
structure CmdRow where
  id : Nat
  timestamp : String
  node_id : Int
  command : CmdText
deriving DecidableEq, Repr

/-- The commands table with its AUTOINCREMENT counter. -/
structure CmdDb where
  rows : List CmdRow
  next : Nat
deriving DecidableEq, Repr

/-- Rows the SELECT of get_and_delete_commands returns:
WHERE node_id = ? ORDER BY id. -/
def pendingRows (db : CmdDb) (node_id : Int) : List CmdRow :=
  (db.rows.filter (fun r => r.node_id == node_id)).mergeSort (fun a b => a.id ≤ b.id)

/-- Function get_and_delete_commands of the source: select the rows for
the node ordered by id, keep the command values that parse (rows whose
command column fails to parse are silently skipped), then DELETE every
row of the node, and return the parsed list. -/
def get_and_delete_commands (db : CmdDb) (node_id : Int) : List Command × CmdDb :=
  ((pendingRows db node_id).filterMap (fun r => parseCommand r.command),
   { db with rows := db.rows.filter (fun r => !(r.node_id == node_id)) })

/-- Function insert_command of the source: one INSERT with the server
RFC3339 timestamp (passed here already rendered) and the serialized
envelope. -/
def insert_command (db : CmdDb) (now_str : String) (node_id : Int) (text : CmdText) : CmdDb :=
  { rows := db.rows ++ [⟨db.next, now_str, node_id, text⟩], next := db.next + 1 }

/-- Content of a key-value store cell as the Rust accessors see it:
store.get may fail (readErr), return no bytes (absent), or return bytes
that parse to a value (val) or do not parse (garbage). -/
inductive KvCell where
  | absent
  | readErr
  | garbage
  | val (n : Int)
deriving DecidableEq, Repr

/-- The key-value store: the last_cleanup_time key (val n means the
stored RFC3339 string parses to instant n, in seconds) and the
max_upload_interval key (val n means the stored decimal string parses
to n). -/
structure KvStore where
  last_cleanup_time : KvCell
  max_upload_interval : KvCell
deriving DecidableEq, Repr

/-- Function should_cleanup of the source.  The Ok(Some(bytes)) arm
parses the bytes and propagates a parse failure as an error through ?;
the wildcard arm (no bytes, or a failed read) yields true.  The age test
is chrono num_minutes, i.e. truncating division of the second difference
by 60, compared against the configured interval. -/
def should_cleanup (store : KvStore) (now cleanup_interval_minutes : Int) :
    Except Unit Bool :=
  match store.last_cleanup_time with
  | .val t => .ok (cleanup_interval_minutes ≤ Int.tdiv (now - t) 60)
  | .garbage => .error ()
  | .absent => .ok true
  | .readErr => .ok true

/-- Function update_last_cleanup_time of the source: store the RFC3339
rendering of now, which parses back to now. -/
def update_last_cleanup_time (store : KvStore) (now : Int) : KvStore :=
  { store with last_cleanup_time := .val now }

/-- Function get_max_upload_interval of the source: every failure mode
along the option chain falls back to the default. -/
def get_max_upload_interval (store : KvStore) (default : Int) : Int :=
  match store.max_upload_interval with
  | .val n => n
  | _ => default

/-- Function update_max_upload_interval of the source: a global update
overwrites unconditionally; a targeted update writes only when the new
interval exceeds the current one read with the built-in default. -/
def update_max_upload_interval (store : KvStore) (new_interval : Int) (is_global : Bool) :
    KvStore :=
  if is_global then { store with max_upload_interval := .val new_interval }
  else
    if get_max_upload_interval store DEFAULT_UPLOAD_INTERVAL_SECONDS < new_interval then
      { store with max_upload_interval := .val new_interval }
    else store

/-- Ids the DELETE subquery of cleanup_old_data picks in the log table:
SELECT id FROM log_messages WHERE timestamp < cutoff LIMIT 10000.  SQLite
leaves the choice of the limited subset open; the model takes the first
10000 matching rows in table order. -/
def old_log_ids (rows : List LogRow) (cutoff_str : String) : List Int :=
  ((rows.filter (fun r => strLt r.timestamp cutoff_str)).take MAX_LOG_ITEMS_PER_DOWNLOAD).map
    LogRow.id

/-- Effect of DELETE FROM log_messages WHERE id IN (subquery). -/
def delete_old_logs (rows : List LogRow) (cutoff_str : String) : List LogRow :=
  rows.filter (fun r => !((old_log_ids rows cutoff_str).contains r.id))

/-- Ids the DELETE subquery of cleanup_old_data picks in the commands
table. -/
def old_cmd_ids (rows : List CmdRow) (cutoff_str : String) : List Nat :=
  ((rows.filter (fun r => strLt r.timestamp cutoff_str)).take MAX_LOG_ITEMS_PER_DOWNLOAD).map
    CmdRow.id

/-- Effect of DELETE FROM commands WHERE id IN (subquery). -/
def delete_old_cmds (rows : List CmdRow) (cutoff_str : String) : List CmdRow :=
  rows.filter (fun r => !((old_cmd_ids rows cutoff_str).contains r.id))

/-- All durable state a request touches: the two SQLite tables and the
key-value store. -/
structure Sys where
  logs : LogDb
  cmds : CmdDb
  store : KvStore
deriving DecidableEq, Repr

/-- Function cleanup_old_data of the source: one bounded DELETE against
each table, both using the same rendered cutoff string
(now - delete_timeout_minutes as RFC3339).  The two COUNT statements
only feed debug logging and have no effect on state. -/
def cleanup_old_data (sys : Sys) (cutoff_str : String) : Sys :=
  { sys with
    logs := { sys.logs with rows := delete_old_logs sys.logs.rows cutoff_str },
    cmds := { sys.cmds with rows := delete_old_cmds sys.cmds.rows cutoff_str } }

/-- Per-request environment: the server clock, the configuration values
resolved from variables::get with their defaults, the rendered RFC3339
strings the code derives from the clock, and the three configured
secrets.  download_cutoff maps the max_upload_interval read during the
request to the rendered cutoff string
(now - seconds(interval * 1.1)).to_rfc3339(). -/
structure Env where
  now : Int
  now_str : String
  cleanup_interval_minutes : Int
  cleanup_cutoff_str : String
  download_cutoff : Int → String
  default_upload_interval : Int
  probe_api_key : String
  log_collector_api_key : String
  cli_api_key : String

/-- The throttled cleanup block shared by handle_update and
handle_download: if should_cleanup? \x7b cleanup_old_data?;
update_last_cleanup_time? \x7d.  Result none models the ? propagating the
should_cleanup error, in which case nothing has been written. -/
def maybe_cleanup (env : Env) (sys : Sys) : Option Sys :=
  match should_cleanup sys.store env.now env.cleanup_interval_minutes with
  | .error _ => none
  | .ok false => some sys
  | .ok true =>
    let sys := cleanup_old_data sys env.cleanup_cutoff_str
    some { sys with store := update_last_cleanup_time sys.store env.now }

/-- Struct ProbeUploadRequest of the source. -/
structure ProbeUploadRequest where
  logs : List LogEntry
deriving DecidableEq, Repr

/-- Struct CommandRequest of the source, with parameters abstracted the
same way as in Command. -/
structure CommandRequest where
  command : String
  parameters : Option CmdParams
deriving DecidableEq, Repr

/-- Responses the handlers build themselves.  unauthorized is the 401
page, badRequest the 400 page of handle_download, okCommands /
okLogs / okText the 200 bodies of the three handlers. -/
inductive Resp where
  | unauthorized
  | badRequest
  | okCommands (cmds : List Command)
  | okLogs (logs : List DownloadLogEntry)
  | okText
deriving DecidableEq, Repr

/-- Outcome of a handler: the durable state it leaves behind and either
a response it built (some) or an error propagated through ? (none),
which the surrounding component maps to a generic internal failure
outside this code. -/
abbrev HandlerOut := Sys × Option Resp

/-- Function handle_update of the source.  api_key_hdr none is a missing
X-Api-Key header (the ok_or_else makes the handler fail), node_id_hdr
none a missing or non-u32 X-Node-Id header, body none a request body
serde fails to parse; each of these aborts through ?.  insOk is the
statement-success oracle of the log INSERT loop. -/
def handle_update (env : Env) (sys : Sys) (api_key_hdr : Option String)
    (node_id_hdr : Option Int) (body : Option ProbeUploadRequest)
    (insOk : LogEntry → Bool) : HandlerOut :=
  match api_key_hdr with
  | none => (sys, none)
  | some k =>
    if k ≠ env.probe_api_key then (sys, some .unauthorized)
    else
      match node_id_hdr with
      | none => (sys, none)
      | some nid =>
        match body with
        | none => (sys, none)
        | some req =>
          match insert_log_messages insOk sys.logs nid req.logs with
          | (logdb, false) => ({ sys with logs := logdb }, none)
          | (logdb, true) =>
            let sys := { sys with logs := logdb }
            match maybe_cleanup env sys with
            | none => (sys, none)
            | some sys =>
              let (cmds, cmdb) := get_and_delete_commands sys.cmds nid
              ({ sys with cmds := cmdb }, some (.okCommands cmds))

/-- Digit accumulator for the decimal integer parse. -/
def digitsAux : Nat → List Char → Option Nat
  | acc, [] => some acc
  | acc, c :: cs =>
    if 48 ≤ c.toNat && c.toNat ≤ 57 then digitsAux (acc * 10 + (c.toNat - 48)) cs
    else none

/-- Parse of a nonempty all-digit character list. -/
def parseDec : List Char → Option Nat
  | [] => none
  | l => digitsAux 0 l

/-- The parse of the last_log_message_id query parameter value, modelling
str::parse for i64 in the source: an optional sign followed by one or
more decimal digits and nothing else; 64-bit overflow is not modelled
(no claim depends on it). -/
def parse_last_id (s : String) : Option Int :=
  match s.data with
  | '+' :: rest => (parseDec rest).map Int.ofNat
  | '-' :: rest => (parseDec rest).map (fun n => -(n : Int))
  | l => (parseDec l).map Int.ofNat

/-- Function handle_download of the source.  raw_param is the text after
last_log_message_id= in the query string, none when the parameter is
missing; a missing parameter or a failed parse aborts through ?, a
negative value gets the explicit 400 response. -/
def handle_download (env : Env) (sys : Sys) (api_key_hdr : Option String)
    (raw_param : Option String) : HandlerOut :=
  match api_key_hdr with
  | none => (sys, none)
  | some k =>
    if k ≠ env.log_collector_api_key then (sys, some .unauthorized)
    else
      match raw_param with
      | none => (sys, none)
      | some s =>
        match parse_last_id s with
        | none => (sys, none)
        | some last_id =>
          if last_id < 0 then (sys, some .badRequest)
          else
            let interval := get_max_upload_interval sys.store env.default_upload_interval
            let logs := get_logs_for_download sys.logs.rows last_id
              (env.download_cutoff interval)
            match maybe_cleanup env sys with
            | none => (sys, none)
            | some sys => (sys, some (.okLogs logs))

/-- Function handle_command of the source: after the auth and body
checks, build the envelope, pick the target scope from the node_id /
node id parameter, insert one command row per target, and finally run
the set_update_interval bookkeeping against the key-value store. -/
def handle_command (env : Env) (sys : Sys) (api_key_hdr : Option String)
    (body : Option CommandRequest) : HandlerOut :=
  match api_key_hdr with
  | none => (sys, none)
  | some k =>
    if k ≠ env.cli_api_key then (sys, some .unauthorized)
    else
      match body with
      | none => (sys, none)
      | some req =>
        let envl : Command := ⟨req.command, req.parameters⟩
        let node_id_opt : Option Int :=
          req.parameters.bind (fun p => (p.node_id.or p.node_id_spaced).as_i64)
        let cmdb :=
          match node_id_opt with
          | some nid => insert_command sys.cmds env.now_str nid (.ofCommand envl)
          | none =>
            (get_all_node_ids sys.logs.rows).foldl
              (fun db nid => insert_command db env.now_str nid (.ofCommand envl)) sys.cmds
        let sys := { sys with cmds := cmdb }
        let store :=
          if req.command = "set_update_interval" then
            match req.parameters with
            | some p =>
              match p.active_period, p.inactive_period with
              | some a, some i =>
                update_max_upload_interval sys.store (max a i) node_id_opt.isNone
              | _, _ => sys.store
            | none => sys.store
          else sys.store
        ({ sys with store := store }, some .okText)

/-- Single-writer operations against the commands table: an enqueue by
the dispatcher (insert_command of a serialized envelope, as
handle_command performs it) or a drain by an upload
(get_and_delete_commands). -/
inductive QOp where
  | enq (node : Int) (c : Command) (ts : String)
  | dr (node : Int)
deriving DecidableEq, Repr

/-- State reached after one queue operation. -/
def execOp (db : CmdDb) : QOp → CmdDb
  | .enq n c ts => insert_command db ts n (.ofCommand c)
  | .dr n => (get_and_delete_commands db n).2

/-- State reached after a sequence of queue operations. -/
def execOps (db : CmdDb) : List QOp → CmdDb
  | [] => db
  | op :: rest => execOps (execOp db op) rest

/-- Whether a sequence of operations contains a drain for the node. -/
def hasDrainFor (n : Int) : List QOp → Bool
  | [] => false
  | .dr m :: rest => (m == n) || hasDrainFor n rest
  | .enq _ _ _ :: rest => hasDrainFor n rest

/-- Number of drains in the sequence whose SELECT returns the row with
id rid, running the sequence from db. -/
def deliverCount (db : CmdDb) (rid : Nat) : List QOp → Nat
  | [] => 0
  | .enq n c ts :: rest => deliverCount (insert_command db ts n (.ofCommand c)) rid rest
  | .dr n :: rest =>
    (if rid ∈ (pendingRows db n).map CmdRow.id then 1 else 0)
      + deliverCount ((get_and_delete_commands db n).2) rid rest

/-- Well-formedness the AUTOINCREMENT discipline keeps on the commands
table: ids strictly increase in table order and stay below the counter. -/
def CmdWF (db : CmdDb) : Prop :=
  db.rows.Pairwise (fun a b => a.id < b.id) ∧ ∀ r ∈ db.rows, r.id < db.next

instance (db : CmdDb) : Decidable (CmdWF db) := by
  unfold CmdWF; infer_instance

/-! Order facts about the SQLite BINARY string comparison. -/

theorem strLtL_irrefl : ∀ l, strLtL l l = false
  | [] => rfl
  | a :: as => by simp [strLtL, strLtL_irrefl as]

theorem strLtL_asymm : ∀ a b, strLtL a b = true → strLtL b a = false
  | [], [] => by simp [strLtL]
  | [], _ :: _ => by simp [strLtL]
  | _ :: _, [] => by simp [strLtL]
  | a :: as, b :: bs => by
    intro h
    simp only [strLtL] at h ⊢
    by_cases h1 : a.toNat < b.toNat
    · have h2 : ¬ b.toNat < a.toNat := by omega
      simp [h1, h2]
    · by_cases h2 : b.toNat < a.toNat
      · simp [h1, h2] at h
      · simp only [h1, h2, if_false] at h ⊢
        exact strLtL_asymm as bs h

theorem strLtL_trans : ∀ a b c, strLtL a b = true → strLtL b c = true → strLtL a c = true
  | [], [], _ => by intro h _; simp [strLtL] at h
  | [], _ :: _, [] => by intro _ h; simp [strLtL] at h
  | [], _ :: _, _ :: _ => by intro _ _; simp [strLtL]
  | _ :: _, [], _ => by intro h _; simp [strLtL] at h
  | _ :: _, _ :: _, [] => by intro _ h; simp [strLtL] at h
  | a :: as, b :: bs, c :: cs => by
    intro h1 h2
    simp only [strLtL] at h1 h2 ⊢
    by_cases hab : a.toNat < b.toNat <;> by_cases hbc : b.toNat < c.toNat
    · have : a.toNat < c.toNat := by omega
      simp [this]
    · by_cases hcb : c.toNat < b.toNat
      · simp [hbc, hcb] at h2
      · have hac : a.toNat < c.toNat := by omega
        simp [hac]
    · by_cases hba : b.toNat < a.toNat
      · simp [hab, hba] at h1
      · have hac : a.toNat < c.toNat := by omega
        simp [hac]
    · by_cases hba : b.toNat < a.toNat
      · simp [hab, hba] at h1
      · by_cases hcb : c.toNat < b.toNat
        · simp [hbc, hcb] at h2
        · have h1na : ¬ a.toNat < c.toNat := by omega
          have h1nb : ¬ c.toNat < a.toNat := by omega
          simp only [hab, hba, if_false] at h1
          simp only [hbc, hcb, if_false] at h2
          simp only [h1na, h1nb, if_false]
          exact strLtL_trans as bs cs h1 h2

theorem strLtL_eq_of_both_false : ∀ a b, strLtL a b = false → strLtL b a = false → a = b
  | [], [], _, _ => rfl
  | [], _ :: _, h, _ => by simp [strLtL] at h
  | _ :: _, [], _, h => by simp [strLtL] at h
  | a :: as, b :: bs, h1, h2 => by
    simp only [strLtL] at h1 h2
    by_cases hab : a.toNat < b.toNat
    · simp [hab] at h1
    · by_cases hba : b.toNat < a.toNat
      · simp [hab, hba] at h1
        simp [hba] at h2
      · simp only [hab, hba, if_false] at h1 h2
        have hchar : a = b := by
          apply Char.ext
          apply UInt32.ext
          have : a.toNat = b.toNat := by omega
          simpa [Char.toNat, UInt32.toNat] using this
        rw [hchar, strLtL_eq_of_both_false as bs h1 h2]

theorem strLt_asymm {a b : String} (h : strLt a b = true) : strLt b a = false :=
  strLtL_asymm _ _ h

theorem strLt_trans {a b c : String} (h1 : strLt a b = true) (h2 : strLt b c = true) :
    strLt a c = true :=
  strLtL_trans _ _ _ h1 h2

theorem strLt_eq_of_both_false {a b : String} (h1 : strLt a b = false)
    (h2 : strLt b a = false) : a = b :=
  String.ext (strLtL_eq_of_both_false _ _ h1 h2)

theorem downloadLe_trans (a b c : LogRow) (h1 : downloadLe a b = true)
    (h2 : downloadLe b c = true) : downloadLe a c = true := by
  unfold downloadLe at h1 h2 ⊢
  by_cases hab : strLt a.timestamp b.timestamp = true <;>
    by_cases hbc : strLt b.timestamp c.timestamp = true
  · simp [strLt_trans hab hbc]
  · by_cases hcb : strLt c.timestamp b.timestamp = true
    · simp [hab, hcb, strLt_asymm hcb] at h2
    · have : b.timestamp = c.timestamp :=
        strLt_eq_of_both_false (Bool.eq_false_iff.2 hbc) (Bool.eq_false_iff.2 hcb)
      rw [← this]
      simp [hab]
  · by_cases hba : strLt b.timestamp a.timestamp = true
    · simp [hab, hba] at h1
    · have : a.timestamp = b.timestamp :=
        strLt_eq_of_both_false (Bool.eq_false_iff.2 hab) (Bool.eq_false_iff.2 hba)
      rw [this]
      simp [hbc]
  · by_cases hba : strLt b.timestamp a.timestamp = true
    · simp [hab, hba] at h1
    · by_cases hcb : strLt c.timestamp b.timestamp = true
      · simp [hbc, hcb] at h2
      · have e1 : a.timestamp = b.timestamp :=
          strLt_eq_of_both_false (Bool.eq_false_iff.2 hab) (Bool.eq_false_iff.2 hba)
        have e2 : b.timestamp = c.timestamp :=
          strLt_eq_of_both_false (Bool.eq_false_iff.2 hbc) (Bool.eq_false_iff.2 hcb)
        simp only [e1, e2] at h1 h2 ⊢
        simp [strLt, strLtL_irrefl] at h1 h2 ⊢
        omega

theorem downloadLe_total (a b : LogRow) : (downloadLe a b || downloadLe b a) = true := by
  unfold downloadLe
  by_cases hab : strLt a.timestamp b.timestamp = true
  · simp [hab]
  · by_cases hba : strLt b.timestamp a.timestamp = true
    · simp [hab, hba]
    · have : a.timestamp = b.timestamp :=
        strLt_eq_of_both_false (Bool.eq_false_iff.2 hab) (Bool.eq_false_iff.2 hba)
      simp [this, strLt, strLtL_irrefl]
      omega

theorem strLt_irrefl (a : String) : strLt a a = false := strLtL_irrefl _

theorem downloadLe_cases (a b : LogRow) (h : downloadLe a b = true) :
    strLt a.timestamp b.timestamp = true ∨ (a.timestamp = b.timestamp ∧ a.id ≤ b.id) := by
  unfold downloadLe at h
  by_cases h1 : strLt a.timestamp b.timestamp = true
  · exact Or.inl h1
  · by_cases h2 : strLt b.timestamp a.timestamp = true
    · simp [h1, h2] at h
    · refine Or.inr ⟨strLt_eq_of_both_false (Bool.eq_false_iff.2 h1) (Bool.eq_false_iff.2 h2), ?_⟩
      simp [h1, h2] at h
      exact h

/-- Conjunction proved about the export query for claim C1: every
returned entry comes from a stored row passing the id and cutoff
filters, the page respects the 10000 cap, entries are ordered by
(timestamp ascending, id ascending), the page is exactly the eligible
set whenever that set fits the cap, and no returned entry has a
timestamp at or after the cutoff. -/
def ExportSpec (rows : List LogRow) (last_id : Int) (cutoff_str : String) : Prop :=
  (∀ e ∈ get_logs_for_download rows last_id cutoff_str,
     ∃ r ∈ rows, r.id = e.item_id ∧ r.timestamp = e.timestamp ∧ r.node_id = e.node_id ∧
       r.message = e.message ∧ last_id < e.item_id ∧ strLt e.timestamp cutoff_str = true) ∧
  (get_logs_for_download rows last_id cutoff_str).length ≤ MAX_LOG_ITEMS_PER_DOWNLOAD ∧
  List.Pairwise
    (fun a b => strLt a.timestamp b.timestamp = true ∨
      (a.timestamp = b.timestamp ∧ a.item_id ≤ b.item_id))
    (get_logs_for_download rows last_id cutoff_str) ∧
  ((rows.filter (downloadSel last_id cutoff_str)).length ≤ MAX_LOG_ITEMS_PER_DOWNLOAD →
    ∀ r ∈ rows, downloadSel last_id cutoff_str r = true →
      (⟨r.id, r.timestamp, r.node_id, r.message⟩ : DownloadLogEntry) ∈
        get_logs_for_download rows last_id cutoff_str) ∧
  (∀ e ∈ get_logs_for_download rows last_id cutoff_str,
     strLt cutoff_str e.timestamp = false ∧ e.timestamp ≠ cutoff_str)

/-- C1: for every cursor last_id ≥ 0 and every database state, the export
query returns exactly the log rows with id > last_id and timestamp below
the safety cutoff, ordered by (timestamp ascending, id ascending) and
capped at 10000 records, and no row with timestamp at or after the
cutoff is ever included. -/
theorem c1_export_cutoff_page (rows : List LogRow) (last_id : Int) (cutoff_str : String)
    (hlast : 0 ≤ last_id) : ExportSpec rows last_id cutoff_str := by
  have hperm := List.mergeSort_perm (rows.filter (downloadSel last_id cutoff_str)) downloadLe
  have hsound : ∀ e ∈ get_logs_for_download rows last_id cutoff_str,
      ∃ r ∈ rows, r.id = e.item_id ∧ r.timestamp = e.timestamp ∧ r.node_id = e.node_id ∧
        r.message = e.message ∧ last_id < e.item_id ∧ strLt e.timestamp cutoff_str = true := by
    intro e he
    unfold get_logs_for_download at he
    rcases List.mem_map.1 he with ⟨r, hr, rfl⟩
    have hr1 : r ∈ (rows.filter (downloadSel last_id cutoff_str)).mergeSort downloadLe :=
      (List.take_sublist _ _).mem hr
    have hr2 : r ∈ rows.filter (downloadSel last_id cutoff_str) := hperm.mem_iff.1 hr1
    rcases List.mem_filter.1 hr2 with ⟨hr3, hr4⟩
    unfold downloadSel at hr4
    simp only [Bool.and_eq_true, decide_eq_true_eq] at hr4
    exact ⟨r, hr3, rfl, rfl, rfl, rfl, hr4.1, hr4.2⟩
  refine ⟨hsound, ?_, ?_, ?_, ?_⟩
  · unfold get_logs_for_download
    rw [List.length_map]
    exact List.length_take_le _ _
  · have hs := List.sorted_mergeSort downloadLe_trans downloadLe_total
      (rows.filter (downloadSel last_id cutoff_str))
    have ht := hs.sublist (List.take_sublist MAX_LOG_ITEMS_PER_DOWNLOAD _)
    unfold get_logs_for_download
    refine List.pairwise_map.2 (ht.imp ?_)
    intro a b hab
    exact downloadLe_cases a b hab
  · intro hlen r hr hsel
    unfold get_logs_for_download
    have hlen2 : ((rows.filter (downloadSel last_id cutoff_str)).mergeSort downloadLe).length ≤
        MAX_LOG_ITEMS_PER_DOWNLOAD := by
      rw [hperm.length_eq]
      exact hlen
    rw [List.take_of_length_le hlen2]
    exact List.mem_map.2 ⟨r, hperm.mem_iff.2 (List.mem_filter.2 ⟨hr, hsel⟩), rfl⟩
  · intro e he
    rcases hsound e he with ⟨r, _, _, _, _, _, _, hcut⟩
    refine ⟨strLt_asymm hcut, ?_⟩
    intro heq
    rw [heq] at hcut
    rw [strLt_irrefl] at hcut
    exact Bool.false_ne_true hcut

/-- Witness for C1 at a concrete database and cursor. -/
theorem c1_export_cutoff_page_witness :
    (0 : Int) ≤ 0 ∧
      ExportSpec [⟨1, "2026-01-01T00:00:00+00:00", 7, "m"⟩] 0 "2026-02-01T00:00:00+00:00" :=
  ⟨by decide, c1_export_cutoff_page _ _ _ (by decide)⟩

/-! Facts about the command queue used for the at-most-once property. -/

theorem cmdIdLe_trans (a b c : CmdRow) (h1 : (a.id ≤ b.id : Bool) = true)
    (h2 : (b.id ≤ c.id : Bool) = true) : (a.id ≤ c.id : Bool) = true := by
  simp only [decide_eq_true_eq] at h1 h2 ⊢
  omega

theorem cmdIdLe_total (a b : CmdRow) : ((a.id ≤ b.id : Bool) || (b.id ≤ a.id : Bool)) = true := by
  simp only [Bool.or_eq_true, decide_eq_true_eq]
  omega

theorem mem_pendingRows (db : CmdDb) (n : Int) (r : CmdRow) :
    r ∈ pendingRows db n ↔ r ∈ db.rows ∧ r.node_id = n := by
  unfold pendingRows
  rw [(List.mergeSort_perm _ _).mem_iff, List.mem_filter]
  simp

theorem mem_pendingRows_id (db : CmdDb) (n : Int) (rid : Nat) :
    rid ∈ (pendingRows db n).map CmdRow.id ↔
      ∃ r ∈ db.rows, r.id = rid ∧ r.node_id = n := by
  constructor
  · intro h
    rcases List.mem_map.1 h with ⟨r, hr, rfl⟩
    rcases (mem_pendingRows db n r).1 hr with ⟨h1, h2⟩
    exact ⟨r, h1, rfl, h2⟩
  · rintro ⟨r, hr, rfl, hn⟩
    exact List.mem_map.2 ⟨r, (mem_pendingRows db n r).2 ⟨hr, hn⟩, rfl⟩

theorem cmdWF_insert (db : CmdDb) (ts : String) (n : Int) (t : CmdText) (h : CmdWF db) :
    CmdWF (insert_command db ts n t) := by
  obtain ⟨h1, h2⟩ := h
  unfold insert_command
  constructor
  · rw [List.pairwise_append]
    refine ⟨h1, List.pairwise_singleton _ _, ?_⟩
    intro a ha b hb
    rw [List.mem_singleton] at hb
    subst hb
    exact h2 a ha
  · intro r hr
    rcases List.mem_append.1 hr with hl | hr2
    · exact Nat.lt_succ_of_lt (h2 r hl)
    · rw [List.mem_singleton] at hr2
      subst hr2
      exact Nat.lt_succ_self _

theorem cmdWF_drain (db : CmdDb) (n : Int) (h : CmdWF db) :
    CmdWF (get_and_delete_commands db n).2 := by
  obtain ⟨h1, h2⟩ := h
  exact ⟨h1.filter _, fun r hr => h2 r (List.mem_filter.1 hr).1⟩

theorem cmdWF_id_unique (db : CmdDb) (h : CmdWF db) (r s : CmdRow)
    (hr : r ∈ db.rows) (hs : s ∈ db.rows) (hid : r.id = s.id) : r = s := by
  have hids : (db.rows.map CmdRow.id).Pairwise (· < ·) :=
    List.pairwise_map.2 h.1
  have hnd : (db.rows.map CmdRow.id).Nodup := hids.imp Nat.ne_of_lt
  exact List.inj_on_of_nodup_map hnd hr hs hid

/-- Drains never return a fresh id: any row in the table keeps an id
below the counter, so the count of drains returning a given dead id is
zero. -/
theorem deliverCount_absent :
    ∀ (ops : List QOp) (db : CmdDb) (rid : Nat), CmdWF db → rid < db.next →
      (∀ r ∈ db.rows, r.id ≠ rid) → deliverCount db rid ops = 0
  | [], _, _, _, _, _ => rfl
  | .enq m c ts :: rest, db, rid, hwf, hlt, habs => by
    unfold deliverCount
    refine deliverCount_absent rest _ rid (cmdWF_insert db ts m _ hwf)
      (Nat.lt_succ_of_lt hlt) ?_
    intro r hr
    rcases List.mem_append.1 hr with hl | hr2
    · exact habs r hl
    · rw [List.mem_singleton] at hr2
      subst hr2
      show db.next ≠ rid
      omega
  | .dr m :: rest, db, rid, hwf, hlt, habs => by
    unfold deliverCount
    have hnot : rid ∉ (pendingRows db m).map CmdRow.id := by
      intro hmem
      rcases (mem_pendingRows_id db m rid).1 hmem with ⟨r, hr, hid, _⟩
      exact habs r hr hid
    rw [if_neg hnot, Nat.zero_add]
    refine deliverCount_absent rest _ rid (cmdWF_drain db m hwf) hlt ?_
    intro r hr
    exact habs r (List.mem_filter.1 hr).1

/-- A row present in the table is returned by the first drain for its
node and by no other drain: the delivery count over any following
operation sequence is one when the sequence drains the node and zero
otherwise. -/
theorem deliverCount_present :
    ∀ (ops : List QOp) (db : CmdDb) (rid : Nat) (n : Int), CmdWF db →
      (∃ r ∈ db.rows, r.id = rid ∧ r.node_id = n) →
      deliverCount db rid ops = if hasDrainFor n ops then 1 else 0
  | [], _, _, _, _, _ => rfl
  | .enq m c ts :: rest, db, rid, n, hwf, hpres => by
    unfold deliverCount hasDrainFor
    refine deliverCount_present rest _ rid n (cmdWF_insert db ts m _ hwf) ?_
    rcases hpres with ⟨r, hr, hid, hn⟩
    exact ⟨r, List.mem_append.2 (Or.inl hr), hid, hn⟩
  | .dr m :: rest, db, rid, n, hwf, hpres => by
    rcases hpres with ⟨r, hr, hid, hn⟩
    unfold deliverCount hasDrainFor
    by_cases hm : m = n
    · subst hm
      have hmem : rid ∈ (pendingRows db m).map CmdRow.id :=
        (mem_pendingRows_id db m rid).2 ⟨r, hr, hid, hn⟩
      rw [if_pos hmem]
      have hzero : deliverCount (get_and_delete_commands db m).2 rid rest = 0 := by
        refine deliverCount_absent rest _ rid (cmdWF_drain db m hwf) ?_ ?_
        · rw [← hid]
          exact hwf.2 r hr
        · intro s hs hsid
          have hsmem := List.mem_filter.1 hs
          have hseq : s = r := cmdWF_id_unique db hwf s r hsmem.1 hr (hsid.trans hid.symm)
          rw [hseq, hn] at hsmem
          simp at hsmem
      rw [hzero]
      simp
    · have hnot : rid ∉ (pendingRows db m).map CmdRow.id := by
        intro hmem
        rcases (mem_pendingRows_id db m rid).1 hmem with ⟨s, hs, hsid, hsm⟩
        have hseq : s = r := cmdWF_id_unique db hwf s r hs hr (hsid.trans hid.symm)
        rw [hseq] at hsm
        exact hm (hsm.symm.trans hn)
      rw [if_neg hnot, Nat.zero_add]
      have : (m == n) = false := by
        simp [hm]
      rw [this, Bool.false_or]
      refine deliverCount_present rest _ rid n (cmdWF_drain db m hwf) ?_
      refine ⟨r, List.mem_filter.2 ⟨hr, ?_⟩, hid, hn⟩
      simp [hn, hm]
      omega

/-- A row for node n survives any operation sequence that contains no
drain for n. -/
theorem row_survives :
    ∀ (pre : List QOp) (db : CmdDb) (r : CmdRow) (n : Int), r ∈ db.rows → r.node_id = n →
      hasDrainFor n pre = false → r ∈ (execOps db pre).rows
  | [], _, _, _, hr, _, _ => hr
  | .enq m c ts :: rest, db, r, n, hr, hn, hnd => by
    unfold execOps execOp
    exact row_survives rest _ r n (List.mem_append.2 (Or.inl hr)) hn hnd
  | .dr m :: rest, db, r, n, hr, hn, hnd => by
    unfold hasDrainFor at hnd
    rw [Bool.or_eq_false_iff] at hnd
    have hm : m ≠ n := by
      intro h
      rw [h] at hnd
      simp at hnd
    unfold execOps execOp get_and_delete_commands
    refine row_survives rest _ r n (List.mem_filter.2 ⟨hr, ?_⟩) hn hnd.2
    simp [hn]
    omega

/-- Conjunction proved for claim C2 about one enqueued command: over any
following single-writer operation sequence, the number of drains whose
SELECT returns the new row is one exactly when the sequence drains the
node and zero otherwise, and at the first drain for the node the row is
selected and its envelope is in the returned list. -/
def DrainOnceSpec (db0 : CmdDb) (N : Int) (c : Command) (ts : String) (ops : List QOp) :
    Prop :=
  deliverCount (insert_command db0 ts N (.ofCommand c)) db0.next ops =
      (if hasDrainFor N ops then 1 else 0) ∧
  (∀ pre post, ops = pre ++ .dr N :: post → hasDrainFor N pre = false →
    db0.next ∈
      (pendingRows (execOps (insert_command db0 ts N (.ofCommand c)) pre) N).map CmdRow.id ∧
    c ∈ (get_and_delete_commands (execOps (insert_command db0 ts N (.ofCommand c)) pre) N).1)

/-- Facts about a single drain on a well-formed table, for claim C2: the
selected rows are ordered by strictly increasing id, the returned list
is the parse of exactly those rows, and afterwards no row for the node
remains. -/
def DrainStateSpec (db : CmdDb) (n : Int) : Prop :=
  List.Pairwise (· < ·) ((pendingRows db n).map CmdRow.id) ∧
  (get_and_delete_commands db n).1 =
    (pendingRows db n).filterMap (fun r => parseCommand r.command) ∧
  ∀ r ∈ (get_and_delete_commands db n).2.rows, r.node_id ≠ n

/-- C2: in any single-writer execution, a command enqueued for node N is
contained in the result of exactly the first subsequent drain for N and
in no other drain; a drain returns the pending commands of the node
ordered by enqueue id and leaves no pending command for the node. -/
theorem c2_drain_at_most_once (db0 : CmdDb) (N : Int) (c : Command) (ts : String)
    (ops : List QOp) (hwf : CmdWF db0) :
    DrainOnceSpec db0 N c ts ops ∧ ∀ db n, CmdWF db → DrainStateSpec db n := by
  constructor
  · constructor
    · refine deliverCount_present ops _ db0.next N (cmdWF_insert db0 ts N _ hwf) ?_
      refine ⟨⟨db0.next, ts, N, .ofCommand c⟩, ?_, rfl, rfl⟩
      exact List.mem_append.2 (Or.inr (List.mem_singleton.2 rfl))
    · intro pre post hops hnd
      have hrow : (⟨db0.next, ts, N, .ofCommand c⟩ : CmdRow) ∈
          (execOps (insert_command db0 ts N (.ofCommand c)) pre).rows := by
        refine row_survives pre _ _ N ?_ rfl hnd
        exact List.mem_append.2 (Or.inr (List.mem_singleton.2 rfl))
      constructor
      · exact (mem_pendingRows_id _ N db0.next).2 ⟨_, hrow, rfl, rfl⟩
      · have hpend : (⟨db0.next, ts, N, .ofCommand c⟩ : CmdRow) ∈
            pendingRows (execOps (insert_command db0 ts N (.ofCommand c)) pre) N :=
          (mem_pendingRows _ N _).2 ⟨hrow, rfl⟩
        exact List.mem_filterMap.2 ⟨_, hpend, rfl⟩
  · intro db n hdb
    refine ⟨?_, rfl, ?_⟩
    · have hs := List.sorted_mergeSort cmdIdLe_trans cmdIdLe_total (db.rows.filter (fun r => r.node_id == n))
      have hle : List.Pairwise (fun a b : Nat => a ≤ b) ((pendingRows db n).map CmdRow.id) := by
        refine List.pairwise_map.2 (hs.imp ?_)
        intro a b hab
        exact of_decide_eq_true hab
      have hnd : ((pendingRows db n).map CmdRow.id).Nodup := by
        have hperm : ((pendingRows db n).map CmdRow.id).Perm
            ((db.rows.filter (fun r => r.node_id == n)).map CmdRow.id) :=
          (List.mergeSort_perm _ _).map CmdRow.id
        rw [hperm.nodup_iff]
        have hpw : List.Pairwise (fun a b : CmdRow => a.id < b.id)
            (db.rows.filter (fun r => r.node_id == n)) := hdb.1.filter _
        exact (List.pairwise_map.2 hpw).imp Nat.ne_of_lt
      exact List.Sorted.lt_of_le hle hnd
    · intro r hr
      have := (List.mem_filter.1 hr).2
      simp at this
      exact this

/-- Witness for C2 at a concrete table, command and trace. -/
theorem c2_drain_at_most_once_witness :
    CmdWF ⟨[], 0⟩ ∧
      (DrainOnceSpec ⟨[], 0⟩ 7 ⟨"ping", none⟩ "2026-01-01T00:00:00+00:00" [.dr 7, .dr 7] ∧
        ∀ db n, CmdWF db → DrainStateSpec db n) :=
  ⟨by decide, c2_drain_at_most_once _ 7 _ _ _ (by decide)⟩

/-- Counterexample to C3 as stated: a set_update_interval submission
whose parameters do contain a node_id key, but with a non-integer value,
is treated as broadcast by the source — the or_else runs on the raw
values before the single as_i64 conversion, which then fails — so the
tracked maximum interval is overwritten unconditionally and here
decreases from 100 to 20, although a node_id parameter is present. -/
theorem c3_counterexample :
    (handle_command ⟨0, "t", 5, "c", fun _ => "x", 300, "pk", "ck", "op"⟩
        ⟨⟨[], 0⟩, ⟨[], 0⟩, ⟨.absent, .val 100⟩⟩ (some "op")
        (some ⟨"set_update_interval",
          some ⟨.otherVal, .absent, some 20, some 10⟩⟩)).1.store.max_upload_interval =
      KvCell.val 20 ∧
    KvCell.val (20 : Int) ≠ KvCell.val (max 100 (max 20 10)) ∧ (20 : Int) < 100 := by
  refine ⟨?_, by decide, by decide⟩
  simp [handle_command, JsonField.or, JsonField.as_i64, update_max_upload_interval]

/-- C3 (amended): for a submitted set_update_interval command carrying
both periods as integers, with candidate = max(active, inactive), the
scope is decided by the single as_i64 conversion of the first present
raw node-id value (node_id, falling back to the node id key): when that
extraction yields no integer — both keys absent, or the winning value
not an integer — the tracked maximum interval is overwritten with the
candidate unconditionally (so a present but non-integer node_id can
decrease it), and when it yields an integer the tracked maximum becomes
max(previous value, candidate), never decreasing. -/
theorem c3_update_interval_policy (env : Env) (sys : Sys) (req : CommandRequest)
    (p : CmdParams) (a i : Int) (hcmd : req.command = "set_update_interval")
    (hp : req.parameters = some p) (ha : p.active_period = some a)
    (hi : p.inactive_period = some i) :
    ((p.node_id.or p.node_id_spaced).as_i64 = none →
      (handle_command env sys (some env.cli_api_key) (some req)).1.store.max_upload_interval =
        KvCell.val (max a i)) ∧
    (∀ nid v, (p.node_id.or p.node_id_spaced).as_i64 = some nid →
      sys.store.max_upload_interval = KvCell.val v →
      (handle_command env sys (some env.cli_api_key) (some req)).1.store.max_upload_interval =
        KvCell.val (max v (max a i))) := by
  obtain ⟨cmd, params⟩ := req
  simp only at hcmd hp
  subst hcmd
  subst hp
  constructor
  · intro h1
    simp [handle_command, ha, hi, h1, update_max_upload_interval]
  · intro nid v hsome hv
    simp only [handle_command, ha, hi]
    rw [if_neg (fun h : env.cli_api_key ≠ env.cli_api_key => h rfl)]
    simp only [if_true, Option.some_bind, Option.bind_some, hsome, Option.isNone_some]
    unfold update_max_upload_interval get_max_upload_interval
    rw [hv]
    simp only [Bool.false_eq_true, if_false]
    by_cases hlt : v < max a i
    · simp only [if_pos hlt]
      simp [max_eq_right (le_of_lt hlt)]
    · simp only [if_neg hlt]
      simp [max_eq_left (le_of_not_lt hlt), hv]

/-- Witness for the amended C3 at a concrete environment, state and
request. -/
theorem c3_update_interval_policy_witness :
    ("set_update_interval" : String) = "set_update_interval" ∧
      (some (⟨.absent, .absent, some 600, some 60⟩ : CmdParams) =
        some (⟨.absent, .absent, some 600, some 60⟩ : CmdParams)) ∧
      (some (600 : Int) = some 600) ∧ (some (60 : Int) = some 60) ∧
      (((JsonField.absent.or JsonField.absent).as_i64 = none →
        (handle_command ⟨0, "t", 5, "c", fun _ => "x", 300, "pk", "ck", "op"⟩
            ⟨⟨[], 0⟩, ⟨[], 0⟩, ⟨.absent, .val 300⟩⟩ (some "op")
            (some ⟨"set_update_interval",
              some ⟨.absent, .absent, some 600, some 60⟩⟩)).1.store.max_upload_interval =
          KvCell.val (max 600 60)) ∧
      (∀ nid v, (JsonField.absent.or JsonField.absent).as_i64 = some nid →
        KvCell.val 300 = KvCell.val v →
        (handle_command ⟨0, "t", 5, "c", fun _ => "x", 300, "pk", "ck", "op"⟩
            ⟨⟨[], 0⟩, ⟨[], 0⟩, ⟨.absent, .val 300⟩⟩ (some "op")
            (some ⟨"set_update_interval",
              some ⟨.absent, .absent, some 600, some 60⟩⟩)).1.store.max_upload_interval =
          KvCell.val (max v (max 600 60)))) :=
  ⟨rfl, rfl, rfl, rfl,
    c3_update_interval_policy ⟨0, "t", 5, "c", fun _ => "x", 300, "pk", "ck", "op"⟩
      ⟨⟨[], 0⟩, ⟨[], 0⟩, ⟨.absent, .val 300⟩⟩
      ⟨"set_update_interval", some ⟨.absent, .absent, some 600, some 60⟩⟩
      ⟨.absent, .absent, some 600, some 60⟩ 600 60 rfl rfl rfl rfl⟩

theorem insert_log_messages_append (insOk : LogEntry → Bool) :
    ∀ (logs : List LogEntry) (db : LogDb) (nid : Int),
      ∃ new, (insert_log_messages insOk db nid logs).1.rows = db.rows ++ new
  | [], db, nid => ⟨[], (List.append_nil _).symm⟩
  | l :: ls, db, nid => by
    unfold insert_log_messages
    by_cases h : insOk l = true
    · rw [if_pos h]
      rcases insert_log_messages_append insOk ls (insert_log db nid l) nid with ⟨new, hnew⟩
      refine ⟨⟨db.next, l.timestamp, nid, l.message⟩ :: new, ?_⟩
      rw [hnew]
      unfold insert_log
      simp
    · rw [if_neg h]
      exact ⟨[], (List.append_nil _).symm⟩

/-- Counterexample to C4 as stated: an upload of two entries whose
second INSERT statement fails does abort with an error, yet the
persisted log set is not unchanged — the first entry is already
committed, because the insert loop runs one autocommitted statement per
entry with no surrounding transaction. -/
theorem c4_counterexample :
    ((insert_log_messages (fun l => l.message != "b")
        (⟨⟨[], 0⟩, ⟨[], 0⟩, ⟨.absent, .absent⟩⟩ : Sys).logs
        7 [⟨"t1", "a"⟩, ⟨"t2", "b"⟩]).2 = false) ∧
    (handle_update ⟨0, "t", 5, "c", fun _ => "x", 300, "pk", "ck", "op"⟩
        ⟨⟨[], 0⟩, ⟨[], 0⟩, ⟨.absent, .absent⟩⟩ (some "pk") (some 7)
        (some ⟨[⟨"t1", "a"⟩, ⟨"t2", "b"⟩]⟩) (fun l => l.message != "b")).2 = none ∧
    (handle_update ⟨0, "t", 5, "c", fun _ => "x", 300, "pk", "ck", "op"⟩
        ⟨⟨[], 0⟩, ⟨[], 0⟩, ⟨.absent, .absent⟩⟩ (some "pk") (some 7)
        (some ⟨[⟨"t1", "a"⟩, ⟨"t2", "b"⟩]⟩) (fun l => l.message != "b")).1.logs.rows ≠
      (⟨⟨[], 0⟩, ⟨[], 0⟩, ⟨.absent, .absent⟩⟩ : Sys).logs.rows := by
  refine ⟨rfl, rfl, ?_⟩
  intro h
  simp [handle_update, insert_log_messages, insert_log] at h

/-- C4 (amended): when inserting some uploaded entry fails, the upload
aborts with an error and performs neither the retention check nor the
command drain — the commands table and the key-value store are exactly
as before — but the log table keeps the prior rows plus the entries
inserted before the failure, so the persisted set is not unchanged in
general. -/
theorem c4_partial_insert_abort (env : Env) (sys : Sys) (nid : Int)
    (req : ProbeUploadRequest) (insOk : LogEntry → Bool)
    (hfail : (insert_log_messages insOk sys.logs nid req.logs).2 = false) :
    handle_update env sys (some env.probe_api_key) (some nid) (some req) insOk =
      ({ sys with logs := (insert_log_messages insOk sys.logs nid req.logs).1 }, none) ∧
    ∃ new, (insert_log_messages insOk sys.logs nid req.logs).1.rows = sys.logs.rows ++ new := by
  constructor
  · have hne : ¬ env.probe_api_key ≠ env.probe_api_key := fun h => h rfl
    simp only [handle_update, if_neg hne]
    cases hins : insert_log_messages insOk sys.logs nid req.logs with
    | mk ldb b =>
      rw [hins] at hfail
      simp only at hfail
      subst hfail
      simp
  · exact insert_log_messages_append insOk req.logs sys.logs nid

/-- Witness for the amended C4 at a concrete failing upload. -/
theorem c4_partial_insert_abort_witness :
    ((insert_log_messages (fun l => l.message != "b")
        (⟨⟨[], 0⟩, ⟨[], 0⟩, ⟨.absent, .absent⟩⟩ : Sys).logs 7 [⟨"t1", "a"⟩, ⟨"t2", "b"⟩]).2 =
      false) ∧
    (handle_update ⟨0, "t", 5, "c", fun _ => "x", 300, "pk", "ck", "op"⟩
        ⟨⟨[], 0⟩, ⟨[], 0⟩, ⟨.absent, .absent⟩⟩
        (some (⟨0, "t", 5, "c", fun _ => "x", 300, "pk", "ck", "op"⟩ : Env).probe_api_key)
        (some 7) (some ⟨[⟨"t1", "a"⟩, ⟨"t2", "b"⟩]⟩) (fun l => l.message != "b") =
      ({ (⟨⟨[], 0⟩, ⟨[], 0⟩, ⟨.absent, .absent⟩⟩ : Sys) with
          logs := (insert_log_messages (fun l => l.message != "b")
            (⟨⟨[], 0⟩, ⟨[], 0⟩, ⟨.absent, .absent⟩⟩ : Sys).logs 7
            [⟨"t1", "a"⟩, ⟨"t2", "b"⟩]).1 }, none) ∧
      ∃ new, (insert_log_messages (fun l => l.message != "b")
          (⟨⟨[], 0⟩, ⟨[], 0⟩, ⟨.absent, .absent⟩⟩ : Sys).logs 7
          [⟨"t1", "a"⟩, ⟨"t2", "b"⟩]).1.rows =
        (⟨⟨[], 0⟩, ⟨[], 0⟩, ⟨.absent, .absent⟩⟩ : Sys).logs.rows ++ new) :=
  ⟨by decide,
    c4_partial_insert_abort ⟨0, "t", 5, "c", fun _ => "x", 300, "pk", "ck", "op"⟩
      ⟨⟨[], 0⟩, ⟨[], 0⟩, ⟨.absent, .absent⟩⟩ 7 ⟨[⟨"t1", "a"⟩, ⟨"t2", "b"⟩]⟩
      (fun l => l.message != "b") (by decide)⟩

theorem foldl_insert_command_rows (ts : String) (t : CmdText) :
    ∀ (ids : List Int) (db : CmdDb),
      ∃ new, (ids.foldl (fun d nid => insert_command d ts nid t) db).rows = db.rows ++ new ∧
        new.map CmdRow.node_id = ids ∧ ∀ r ∈ new, r.command = t ∧ r.timestamp = ts
  | [], db => ⟨[], by simp⟩
  | nid :: ids, db => by
    rcases foldl_insert_command_rows ts t ids (insert_command db ts nid t) with ⟨new, h1, h2, h3⟩
    refine ⟨⟨db.next, ts, nid, t⟩ :: new, ?_, ?_, ?_⟩
    · rw [List.foldl_cons, h1]
      unfold insert_command
      simp
    · simp [h2]
    · intro r hr
      rcases List.mem_cons.1 hr with rfl | hr2
      · exact ⟨rfl, rfl⟩
      · exact h3 r hr2

theorem mem_get_all_node_ids (rows : List LogRow) (m : Int) :
    m ∈ get_all_node_ids rows ↔ ∃ r ∈ rows, r.node_id = m := by
  unfold get_all_node_ids
  rw [(List.mergeSort_perm _ _).mem_iff, List.mem_dedup, List.mem_map]

theorem nodup_get_all_node_ids (rows : List LogRow) : (get_all_node_ids rows).Nodup := by
  unfold get_all_node_ids
  rw [(List.mergeSort_perm _ _).nodup_iff]
  exact List.nodup_dedup _

/-- Conjunction proved for claim C5 about a broadcast submission: the
commands table grows by a block of new rows, that block contains exactly
one row per node_id present in the log table at enqueue time and none
for any other node_id, and every new row carries the submitted
envelope. -/
def BroadcastSpec (env : Env) (sys : Sys) (req : CommandRequest) : Prop :=
  ∃ new,
    (handle_command env sys (some env.cli_api_key) (some req)).1.cmds.rows =
      sys.cmds.rows ++ new ∧
    (∀ m : Int, (new.filter (fun r => r.node_id == m)).length =
      if ∃ r ∈ sys.logs.rows, r.node_id = m then 1 else 0) ∧
    (∀ r ∈ new, r.command = .ofCommand ⟨req.command, req.parameters⟩ ∧
      r.timestamp = env.now_str)

/-- C5: a broadcast command submission (no node_id parameter) inserts
exactly one CommandRecord carrying the envelope for each distinct
node_id present in the log table at enqueue time and none for any other
node_id; a node that never uploaded receives no copy. -/
theorem c5_broadcast_fanout (env : Env) (sys : Sys) (req : CommandRequest)
    (hb : req.parameters.bind (fun p => (p.node_id.or p.node_id_spaced).as_i64) = none) :
    BroadcastSpec env sys req := by
  have hne : ¬ env.cli_api_key ≠ env.cli_api_key := fun h => h rfl
  rcases foldl_insert_command_rows env.now_str
      (.ofCommand ⟨req.command, req.parameters⟩) (get_all_node_ids sys.logs.rows) sys.cmds
    with ⟨new, h1, h2, h3⟩
  refine ⟨new, ?_, ?_, h3⟩
  · simp only [handle_command, if_neg hne, hb]
    simpa using h1
  · intro m
    have hcnt : (new.filter (fun r => r.node_id == m)).length =
        List.count m (get_all_node_ids sys.logs.rows) := by
      rw [← h2, List.count, List.countP_map]
      rw [List.countP_eq_length_filter]
      rfl
    rw [hcnt]
    by_cases hm : ∃ r ∈ sys.logs.rows, r.node_id = m
    · rw [if_pos hm]
      exact List.count_eq_one_of_mem (nodup_get_all_node_ids _)
        ((mem_get_all_node_ids _ m).2 hm)
    · rw [if_neg hm]
      exact List.count_eq_zero_of_not_mem
        (fun hc => hm ((mem_get_all_node_ids _ m).1 hc))

/-- Witness for C5 at a concrete state with two known nodes. -/
theorem c5_broadcast_fanout_witness :
    ((some (⟨.absent, .absent, none, none⟩ : CmdParams)).bind
        (fun p => (p.node_id.or p.node_id_spaced).as_i64) = none) ∧
      BroadcastSpec ⟨0, "t", 5, "c", fun _ => "x", 300, "pk", "ck", "op"⟩
        ⟨⟨[⟨1, "t1", 7, "a"⟩, ⟨2, "t2", 9, "b"⟩], 3⟩, ⟨[], 0⟩, ⟨.absent, .absent⟩⟩
        ⟨"ping", some ⟨.absent, .absent, none, none⟩⟩ :=
  ⟨rfl,
    c5_broadcast_fanout ⟨0, "t", 5, "c", fun _ => "x", 300, "pk", "ck", "op"⟩
      ⟨⟨[⟨1, "t1", 7, "a"⟩, ⟨2, "t2", 9, "b"⟩], 3⟩, ⟨[], 0⟩, ⟨.absent, .absent⟩⟩
      ⟨"ping", some ⟨.absent, .absent, none, none⟩⟩ rfl⟩

theorem log_id_unique (rows : List LogRow) (h : (rows.map LogRow.id).Nodup)
    (r s : LogRow) (hr : r ∈ rows) (hs : s ∈ rows) (hid : r.id = s.id) : r = s :=
  List.inj_on_of_nodup_map h hr hs hid

theorem cmd_id_unique_rows (rows : List CmdRow) (h : (rows.map CmdRow.id).Nodup)
    (r s : CmdRow) (hr : r ∈ rows) (hs : s ∈ rows) (hid : r.id = s.id) : r = s :=
  List.inj_on_of_nodup_map h hr hs hid

/-- Counterexample to C6 as stated: a last-run timestamp that is present
but unreadable (it does not parse as a datetime) does not trigger a
cleanup pass — should_cleanup propagates a parse error, the throttled
block performs no deletion and no timestamp write, and the request
aborts — while the claim says an unreadable timestamp triggers a pass. -/
theorem c6_counterexample :
    should_cleanup ⟨.garbage, .absent⟩ 1000 5 = .error () ∧
    maybe_cleanup ⟨0, "t", 5, "9999", fun _ => "x", 300, "pk", "ck", "op"⟩
        ⟨⟨[⟨1, "1970-01-01T00:00:00+00:00", 7, "m"⟩], 2⟩, ⟨[], 0⟩, ⟨.garbage, .absent⟩⟩ =
      none ∧
    delete_old_logs [⟨1, "1970-01-01T00:00:00+00:00", 7, "m"⟩] "9999" = [] := by
  exact ⟨rfl, rfl, by decide⟩

/-- Conjunction proved for the amended C6: the throttle check succeeds
with a pass exactly when the stored timestamp is absent, the store read
failed, or the age in whole minutes reaches the interval; a parse
failure of a present timestamp yields an error and no pass; a pass
rewrites the last-run timestamp to now and applies the two bounded
deletes; each delete statement removes only rows strictly older than
the cutoff and at most 10000 rows; and a second call immediately after
a successful call changes nothing. -/
def CleanupSpec (env : Env) (sys : Sys) : Prop :=
  (should_cleanup sys.store env.now env.cleanup_interval_minutes = .ok true ↔
    (sys.store.last_cleanup_time = .absent ∨ sys.store.last_cleanup_time = .readErr ∨
      ∃ t, sys.store.last_cleanup_time = .val t ∧
        env.cleanup_interval_minutes ≤ Int.tdiv (env.now - t) 60)) ∧
  (maybe_cleanup env sys = none ↔ sys.store.last_cleanup_time = .garbage) ∧
  (should_cleanup sys.store env.now env.cleanup_interval_minutes = .ok true →
    ∃ sys1, maybe_cleanup env sys = some sys1 ∧
      sys1.store.last_cleanup_time = .val env.now ∧
      sys1.logs.rows = delete_old_logs sys.logs.rows env.cleanup_cutoff_str ∧
      sys1.cmds.rows = delete_old_cmds sys.cmds.rows env.cleanup_cutoff_str) ∧
  (∀ r ∈ sys.logs.rows, r ∉ delete_old_logs sys.logs.rows env.cleanup_cutoff_str →
    strLt r.timestamp env.cleanup_cutoff_str = true) ∧
  (∀ r ∈ sys.cmds.rows, r ∉ delete_old_cmds sys.cmds.rows env.cleanup_cutoff_str →
    strLt r.timestamp env.cleanup_cutoff_str = true) ∧
  ((sys.logs.rows.filter
      (fun r => (old_log_ids sys.logs.rows env.cleanup_cutoff_str).contains r.id)).length ≤
    MAX_LOG_ITEMS_PER_DOWNLOAD) ∧
  ((sys.cmds.rows.filter
      (fun r => (old_cmd_ids sys.cmds.rows env.cleanup_cutoff_str).contains r.id)).length ≤
    MAX_LOG_ITEMS_PER_DOWNLOAD) ∧
  (∀ sys1, maybe_cleanup env sys = some sys1 → maybe_cleanup env sys1 = some sys1)

/-- C6 (amended): the throttled cleanup performs a pass iff the last-run
timestamp is absent, the store read failed, or the age reaches the
configured interval; a present but unparsable timestamp makes the block
abort with an error and no pass; a pass stamps now and runs the two
bounded deletes; deletes remove only strictly-older rows, at most 10000
per statement; and an immediately repeated call after a successful one
performs no further change. -/
theorem c6_cleanup_throttle (env : Env) (sys : Sys)
    (hL : (sys.logs.rows.map LogRow.id).Nodup) (hC : (sys.cmds.rows.map CmdRow.id).Nodup)
    (hpos : 0 < env.cleanup_interval_minutes) : CleanupSpec env sys := by
  refine ⟨?_, ?_, ?_, ?_, ?_, ?_, ?_, ?_⟩
  · cases hcell : sys.store.last_cleanup_time with
    | absent => simp [should_cleanup, hcell]
    | readErr => simp [should_cleanup, hcell]
    | garbage => simp [should_cleanup, hcell]
    | val t => simp [should_cleanup, hcell]
  · cases hcell : sys.store.last_cleanup_time with
    | absent => simp [maybe_cleanup, should_cleanup, hcell]
    | readErr => simp [maybe_cleanup, should_cleanup, hcell]
    | garbage => simp [maybe_cleanup, should_cleanup, hcell]
    | val t =>
      by_cases hP : env.cleanup_interval_minutes ≤ Int.tdiv (env.now - t) 60 <;>
        simp [maybe_cleanup, should_cleanup, hcell, hP]
  · intro h
    simp only [maybe_cleanup, h]
    exact ⟨_, rfl, rfl, rfl, rfl⟩
  · intro r hr hnot
    have hcont : (old_log_ids sys.logs.rows env.cleanup_cutoff_str).contains r.id = true := by
      by_contra hc
      exact hnot (List.mem_filter.2 ⟨hr, by simpa using hc⟩)
    have hmem : r.id ∈ old_log_ids sys.logs.rows env.cleanup_cutoff_str := by
      simpa using hcont
    rcases List.mem_map.1 hmem with ⟨s, hs, hsid⟩
    have hs1 : s ∈ sys.logs.rows.filter (fun x => strLt x.timestamp env.cleanup_cutoff_str) :=
      (List.take_sublist _ _).mem hs
    rcases List.mem_filter.1 hs1 with ⟨hs2, hs3⟩
    have : s = r := log_id_unique sys.logs.rows hL s r hs2 hr hsid
    rw [← this]
    exact hs3
  · intro r hr hnot
    have hcont : (old_cmd_ids sys.cmds.rows env.cleanup_cutoff_str).contains r.id = true := by
      by_contra hc
      exact hnot (List.mem_filter.2 ⟨hr, by simpa using hc⟩)
    have hmem : r.id ∈ old_cmd_ids sys.cmds.rows env.cleanup_cutoff_str := by
      simpa using hcont
    rcases List.mem_map.1 hmem with ⟨s, hs, hsid⟩
    have hs1 : s ∈ sys.cmds.rows.filter (fun x => strLt x.timestamp env.cleanup_cutoff_str) :=
      (List.take_sublist _ _).mem hs
    rcases List.mem_filter.1 hs1 with ⟨hs2, hs3⟩
    have : s = r := cmd_id_unique_rows sys.cmds.rows hC s r hs2 hr hsid
    rw [← this]
    exact hs3
  · have hnd : ((sys.logs.rows.filter
        (fun r => (old_log_ids sys.logs.rows env.cleanup_cutoff_str).contains r.id)).map
          LogRow.id).Nodup :=
      hL.sublist ((List.filter_sublist _).map _)
    have hsub : (sys.logs.rows.filter
        (fun r => (old_log_ids sys.logs.rows env.cleanup_cutoff_str).contains r.id)).map
          LogRow.id ⊆ old_log_ids sys.logs.rows env.cleanup_cutoff_str := by
      intro a ha
      rcases List.mem_map.1 ha with ⟨s, hs, rfl⟩
      have := (List.mem_filter.1 hs).2
      simpa using this
    have hle := List.Subperm.length_le (List.subperm_of_subset hnd hsub)
    rw [List.length_map] at hle
    refine le_trans hle ?_
    unfold old_log_ids
    rw [List.length_map]
    exact List.length_take_le _ _
  · have hnd : ((sys.cmds.rows.filter
        (fun r => (old_cmd_ids sys.cmds.rows env.cleanup_cutoff_str).contains r.id)).map
          CmdRow.id).Nodup :=
      hC.sublist ((List.filter_sublist _).map _)
    have hsub : (sys.cmds.rows.filter
        (fun r => (old_cmd_ids sys.cmds.rows env.cleanup_cutoff_str).contains r.id)).map
          CmdRow.id ⊆ old_cmd_ids sys.cmds.rows env.cleanup_cutoff_str := by
      intro a ha
      rcases List.mem_map.1 ha with ⟨s, hs, rfl⟩
      have := (List.mem_filter.1 hs).2
      simpa using this
    have hle := List.Subperm.length_le (List.subperm_of_subset hnd hsub)
    rw [List.length_map] at hle
    refine le_trans hle ?_
    unfold old_cmd_ids
    rw [List.length_map]
    exact List.length_take_le _ _
  · intro sys1 hsome
    cases hsc : should_cleanup sys.store env.now env.cleanup_interval_minutes with
    | error e => simp [maybe_cleanup, hsc] at hsome
    | ok b =>
      cases b with
      | false =>
        simp only [maybe_cleanup, hsc, Option.some.injEq] at hsome
        subst hsome
        simp [maybe_cleanup, hsc]
      | true =>
        simp only [maybe_cleanup, hsc, Option.some.injEq] at hsome
        have hzero : ¬ env.cleanup_interval_minutes ≤ (0 : Int) := by omega
        subst hsome
        simp [maybe_cleanup, should_cleanup, update_last_cleanup_time, sub_self,
          Int.zero_tdiv, hzero]

/-- Witness for the amended C6 at a concrete state. -/
theorem c6_cleanup_throttle_witness :
    (([⟨1, "1970-01-01T00:00:00+00:00", 7, "m"⟩].map LogRow.id).Nodup) ∧
      (([] : List CmdRow).map CmdRow.id).Nodup ∧ (0 : Int) < 5 ∧
      CleanupSpec ⟨1000, "t", 5, "1975", fun _ => "x", 300, "pk", "ck", "op"⟩
        ⟨⟨[⟨1, "1970-01-01T00:00:00+00:00", 7, "m"⟩], 2⟩, ⟨[], 0⟩, ⟨.absent, .absent⟩⟩ :=
  ⟨by decide, by decide, by decide,
    c6_cleanup_throttle ⟨1000, "t", 5, "1975", fun _ => "x", 300, "pk", "ck", "op"⟩
      ⟨⟨[⟨1, "1970-01-01T00:00:00+00:00", 7, "m"⟩], 2⟩, ⟨[], 0⟩, ⟨.absent, .absent⟩⟩
      (by decide) (by decide) (by decide)⟩

/-- Counterexample to C7 as stated: an export request whose
last_log_message_id value does not parse as an integer does not receive
a bad-request response — the parse failure propagates as an error (the
surrounding component maps it to a generic internal failure), so the
handler produces no response at all, in particular not the 400 page. -/
theorem c7_counterexample :
    parse_last_id "abc" = none ∧
    (handle_download ⟨0, "t", 5, "c", fun _ => "x", 300, "pk", "ck", "op"⟩
        ⟨⟨[], 0⟩, ⟨[], 0⟩, ⟨.absent, .absent⟩⟩ (some "ck") (some "abc")).2 = none ∧
    (handle_download ⟨0, "t", 5, "c", fun _ => "x", 300, "pk", "ck", "op"⟩
        ⟨⟨[], 0⟩, ⟨[], 0⟩, ⟨.absent, .absent⟩⟩ (some "ck") (some "abc")).2 ≠
      some Resp.badRequest := by
  decide

/-- C7 (amended): a negative last_log_message_id receives the explicit
bad-request response with no logs and no state change; an unparsable or
missing value makes the handler abort with a generic error (no
bad-request response and no logs), also with no state change. -/
theorem c7_invalid_cursor (env : Env) (sys : Sys) :
    (∀ s n, parse_last_id s = some n → n < 0 →
      handle_download env sys (some env.log_collector_api_key) (some s) =
        (sys, some Resp.badRequest)) ∧
    (∀ s, parse_last_id s = none →
      handle_download env sys (some env.log_collector_api_key) (some s) = (sys, none)) ∧
    handle_download env sys (some env.log_collector_api_key) none = (sys, none) := by
  have hne : ¬ env.log_collector_api_key ≠ env.log_collector_api_key := fun h => h rfl
  refine ⟨?_, ?_, ?_⟩
  · intro s n hparse hneg
    simp only [handle_download, if_neg hne, hparse, if_pos hneg]
  · intro s hparse
    simp only [handle_download, if_neg hne, hparse]
  · simp only [handle_download, if_neg hne]

/-- Witness for the amended C7 at concrete requests. -/
theorem c7_invalid_cursor_witness :
    (∀ s n, parse_last_id s = some n → n < 0 →
      handle_download ⟨0, "t", 5, "c", fun _ => "x", 300, "pk", "ck", "op"⟩
          ⟨⟨[], 0⟩, ⟨[], 0⟩, ⟨.absent, .absent⟩⟩
          (some (⟨0, "t", 5, "c", fun _ => "x", 300, "pk", "ck",
            "op"⟩ : Env).log_collector_api_key) (some s) =
        (⟨⟨[], 0⟩, ⟨[], 0⟩, ⟨.absent, .absent⟩⟩, some Resp.badRequest)) ∧
    (∀ s, parse_last_id s = none →
      handle_download ⟨0, "t", 5, "c", fun _ => "x", 300, "pk", "ck", "op"⟩
          ⟨⟨[], 0⟩, ⟨[], 0⟩, ⟨.absent, .absent⟩⟩
          (some (⟨0, "t", 5, "c", fun _ => "x", 300, "pk", "ck",
            "op"⟩ : Env).log_collector_api_key) (some s) =
        (⟨⟨[], 0⟩, ⟨[], 0⟩, ⟨.absent, .absent⟩⟩, none)) ∧
    handle_download ⟨0, "t", 5, "c", fun _ => "x", 300, "pk", "ck", "op"⟩
        ⟨⟨[], 0⟩, ⟨[], 0⟩, ⟨.absent, .absent⟩⟩
        (some (⟨0, "t", 5, "c", fun _ => "x", 300, "pk", "ck",
          "op"⟩ : Env).log_collector_api_key) none =
      (⟨⟨[], 0⟩, ⟨[], 0⟩, ⟨.absent, .absent⟩⟩, none) :=
  c7_invalid_cursor ⟨0, "t", 5, "c", fun _ => "x", 300, "pk", "ck", "op"⟩
    ⟨⟨[], 0⟩, ⟨[], 0⟩, ⟨.absent, .absent⟩⟩

/-- Counterexample to C8 as stated: a request with no X-Api-Key header
does not receive an unauthorized response — the missing header makes
the handler abort with a generic error (no response built), so the
claim that absence yields an unauthorized response fails. -/
theorem c8_counterexample :
    (handle_update ⟨0, "t", 5, "c", fun _ => "x", 300, "pk", "ck", "op"⟩
        ⟨⟨[], 0⟩, ⟨[], 0⟩, ⟨.absent, .absent⟩⟩ none (some 7) (some ⟨[]⟩)
        (fun _ => true)).2 = none ∧
    (handle_update ⟨0, "t", 5, "c", fun _ => "x", 300, "pk", "ck", "op"⟩
        ⟨⟨[], 0⟩, ⟨[], 0⟩, ⟨.absent, .absent⟩⟩ none (some 7) (some ⟨[]⟩)
        (fun _ => true)).2 ≠ some Resp.unauthorized := by
  exact ⟨rfl, fun h => by simp [handle_update] at h⟩

/-- C8 (amended): for each of the three operations, a present but
mismatched API key receives the unauthorized response and a missing
header makes the handler abort with a generic error; in both cases no
effect on the stored state occurs. -/
theorem c8_auth_gate (env : Env) (sys : Sys) (k : String) (nid : Option Int)
    (body : Option ProbeUploadRequest) (insOk : LogEntry → Bool) (raw : Option String)
    (cbody : Option CommandRequest) :
    (k ≠ env.probe_api_key →
      handle_update env sys (some k) nid body insOk = (sys, some Resp.unauthorized)) ∧
    handle_update env sys none nid body insOk = (sys, none) ∧
    (k ≠ env.log_collector_api_key →
      handle_download env sys (some k) raw = (sys, some Resp.unauthorized)) ∧
    handle_download env sys none raw = (sys, none) ∧
    (k ≠ env.cli_api_key →
      handle_command env sys (some k) cbody = (sys, some Resp.unauthorized)) ∧
    handle_command env sys none cbody = (sys, none) := by
  refine ⟨?_, rfl, ?_, rfl, ?_, rfl⟩
  · intro h
    simp only [handle_update, if_pos h]
  · intro h
    simp only [handle_download, if_pos h]
  · intro h
    simp only [handle_command, if_pos h]

/-- Witness for the amended C8 with a concrete wrong key. -/
theorem c8_auth_gate_witness :
    (("z" : String) ≠ "pk" →
      handle_update ⟨0, "t", 5, "c", fun _ => "x", 300, "pk", "ck", "op"⟩
          ⟨⟨[], 0⟩, ⟨[], 0⟩, ⟨.absent, .absent⟩⟩ (some "z") (some 7) (some ⟨[]⟩)
          (fun _ => true) =
        (⟨⟨[], 0⟩, ⟨[], 0⟩, ⟨.absent, .absent⟩⟩, some Resp.unauthorized)) ∧
    handle_update ⟨0, "t", 5, "c", fun _ => "x", 300, "pk", "ck", "op"⟩
        ⟨⟨[], 0⟩, ⟨[], 0⟩, ⟨.absent, .absent⟩⟩ none (some 7) (some ⟨[]⟩) (fun _ => true) =
      (⟨⟨[], 0⟩, ⟨[], 0⟩, ⟨.absent, .absent⟩⟩, none) ∧
    (("z" : String) ≠ "ck" →
      handle_download ⟨0, "t", 5, "c", fun _ => "x", 300, "pk", "ck", "op"⟩
          ⟨⟨[], 0⟩, ⟨[], 0⟩, ⟨.absent, .absent⟩⟩ (some "z") (some "0") =
        (⟨⟨[], 0⟩, ⟨[], 0⟩, ⟨.absent, .absent⟩⟩, some Resp.unauthorized)) ∧
    handle_download ⟨0, "t", 5, "c", fun _ => "x", 300, "pk", "ck", "op"⟩
        ⟨⟨[], 0⟩, ⟨[], 0⟩, ⟨.absent, .absent⟩⟩ none (some "0") =
      (⟨⟨[], 0⟩, ⟨[], 0⟩, ⟨.absent, .absent⟩⟩, none) ∧
    (("z" : String) ≠ "op" →
      handle_command ⟨0, "t", 5, "c", fun _ => "x", 300, "pk", "ck", "op"⟩
          ⟨⟨[], 0⟩, ⟨[], 0⟩, ⟨.absent, .absent⟩⟩ (some "z") (some ⟨"ping", none⟩) =
        (⟨⟨[], 0⟩, ⟨[], 0⟩, ⟨.absent, .absent⟩⟩, some Resp.unauthorized)) ∧
    handle_command ⟨0, "t", 5, "c", fun _ => "x", 300, "pk", "ck", "op"⟩
        ⟨⟨[], 0⟩, ⟨[], 0⟩, ⟨.absent, .absent⟩⟩ none (some ⟨"ping", none⟩) =
      (⟨⟨[], 0⟩, ⟨[], 0⟩, ⟨.absent, .absent⟩⟩, none) :=
  c8_auth_gate ⟨0, "t", 5, "c", fun _ => "x", 300, "pk", "ck", "op"⟩
    ⟨⟨[], 0⟩, ⟨[], 0⟩, ⟨.absent, .absent⟩⟩ "z" (some 7) (some ⟨[]⟩) (fun _ => true)
    (some "0") (some ⟨"ping", none⟩)

/-- C10: a stored command row whose command column does not parse as a
Command envelope is omitted from the list a drain returns, yet the
drain's blanket delete removes it together with every other row of the
node, and the enclosing upload still reports success: the handler
returns the 200 response carrying the (shortened) command list. -/
theorem c10_malformed_command_lost (env : Env) (sys : Sys) (n : Int) (s : String)
    (r : CmdRow) (insOk : LogEntry → Bool) (hr : r ∈ sys.cmds.rows) (hnode : r.node_id = n)
    (hmal : r.command = .malformed s) (hval : sys.store.last_cleanup_time = .val env.now)
    (hpos : 0 < env.cleanup_interval_minutes) :
    parseCommand r.command = none ∧
    (get_and_delete_commands sys.cmds n).1 =
      (pendingRows sys.cmds n).filterMap (fun x => parseCommand x.command) ∧
    (get_and_delete_commands sys.cmds n).1.length < (pendingRows sys.cmds n).length ∧
    (get_and_delete_commands sys.cmds n).2.rows.filter (fun x => x.node_id == n) = [] ∧
    handle_update env sys (some env.probe_api_key) (some n) (some ⟨[]⟩) insOk =
      ({ sys with cmds := (get_and_delete_commands sys.cmds n).2 },
        some (.okCommands (get_and_delete_commands sys.cmds n).1)) := by
  have hparse : parseCommand r.command = none := by rw [hmal]; rfl
  refine ⟨hparse, rfl, ?_, ?_, ?_⟩
  · have hpend : r ∈ pendingRows sys.cmds n := (mem_pendingRows _ n r).2 ⟨hr, hnode⟩
    rcases List.append_of_mem hpend with ⟨l1, l2, hsplit⟩
    show (List.filterMap (fun x => parseCommand x.command) (pendingRows sys.cmds n)).length <
      (pendingRows sys.cmds n).length
    rw [hsplit]
    simp only [List.filterMap_append, List.filterMap_cons, hparse, List.length_append,
      List.length_cons]
    have h1 := List.length_filterMap_le (fun x => parseCommand x.command) l1
    have h2 := List.length_filterMap_le (fun x => parseCommand x.command) l2
    omega
  · rw [List.filter_eq_nil_iff]
    intro x hx
    have := (List.mem_filter.1 hx).2
    simp at this ⊢
    exact this
  · have hne : ¬ env.probe_api_key ≠ env.probe_api_key := fun h => h rfl
    have hzero : ¬ env.cleanup_interval_minutes ≤ (0 : Int) := by omega
    simp only [handle_update, if_neg hne, insert_log_messages]
    simp [maybe_cleanup, should_cleanup, hval, sub_self, Int.zero_tdiv, hzero]

/-- Witness for C10 at a concrete table holding one malformed row. -/
theorem c10_malformed_command_lost_witness :
    ((⟨0, "ts", 7, .malformed "oops"⟩ : CmdRow) ∈
        [(⟨0, "ts", 7, .malformed "oops"⟩ : CmdRow)]) ∧
    ((⟨0, "ts", 7, .malformed "oops"⟩ : CmdRow).node_id = 7) ∧
    ((⟨0, "ts", 7, .malformed "oops"⟩ : CmdRow).command = .malformed "oops") ∧
    (KvCell.val (0 : Int) = KvCell.val 0) ∧ ((0 : Int) < 5) ∧
    (parseCommand (⟨0, "ts", 7, .malformed "oops"⟩ : CmdRow).command = none ∧
      (get_and_delete_commands ⟨[⟨0, "ts", 7, .malformed "oops"⟩], 1⟩ 7).1 =
        (pendingRows ⟨[⟨0, "ts", 7, .malformed "oops"⟩], 1⟩ 7).filterMap
          (fun x => parseCommand x.command) ∧
      (get_and_delete_commands ⟨[⟨0, "ts", 7, .malformed "oops"⟩], 1⟩ 7).1.length <
        (pendingRows ⟨[⟨0, "ts", 7, .malformed "oops"⟩], 1⟩ 7).length ∧
      (get_and_delete_commands ⟨[⟨0, "ts", 7, .malformed "oops"⟩], 1⟩ 7).2.rows.filter
          (fun x => x.node_id == 7) = [] ∧
      handle_update ⟨0, "t", 5, "c", fun _ => "x", 300, "pk", "ck", "op"⟩
          ⟨⟨[], 0⟩, ⟨[⟨0, "ts", 7, .malformed "oops"⟩], 1⟩, ⟨.val 0, .absent⟩⟩
          (some (⟨0, "t", 5, "c", fun _ => "x", 300, "pk", "ck", "op"⟩ : Env).probe_api_key)
          (some 7) (some ⟨[]⟩) (fun _ => true) =
        ({ (⟨⟨[], 0⟩, ⟨[⟨0, "ts", 7, .malformed "oops"⟩], 1⟩,
            ⟨.val 0, .absent⟩⟩ : Sys) with
            cmds := (get_and_delete_commands ⟨[⟨0, "ts", 7, .malformed "oops"⟩], 1⟩ 7).2 },
          some (.okCommands
            (get_and_delete_commands ⟨[⟨0, "ts", 7, .malformed "oops"⟩], 1⟩ 7).1))) :=
  ⟨by decide, rfl, rfl, rfl, by decide,
    c10_malformed_command_lost ⟨0, "t", 5, "c", fun _ => "x", 300, "pk", "ck", "op"⟩
      ⟨⟨[], 0⟩, ⟨[⟨0, "ts", 7, .malformed "oops"⟩], 1⟩, ⟨.val 0, .absent⟩⟩ 7 "oops"
      ⟨0, "ts", 7, .malformed "oops"⟩ (fun _ => true) (by decide) rfl rfl rfl (by decide)⟩

/-! Infrastructure for claim C9: lexicographic string comparison versus
chronological order of RFC3339-rendered instants. -/

theorem strLtL_append_iff : ∀ (a b c d : List Char), a.length = b.length →
    (strLtL (a ++ c) (b ++ d) = true ↔
      (strLtL a b = true ∨ (a = b ∧ strLtL c d = true)))
  | [], [], c, d, _ => by simp [strLtL]
  | [], _ :: _, _, _, h => by simp at h
  | _ :: _, [], _, _, h => by simp at h
  | a :: as, b :: bs, c, d, h => by
    simp only [List.cons_append, strLtL]
    by_cases h1 : a.toNat < b.toNat
    · simp [h1]
    · by_cases h2 : b.toNat < a.toNat
      · have hab : a ≠ b := fun hc => by subst hc; omega
        simp [h1, h2, hab]
      · have hab : a = b := by
          apply Char.ext
          apply UInt32.ext
          have : a.toNat = b.toNat := by omega
          simpa [Char.toNat, UInt32.toNat] using this
        subst hab
        simp only [h1, h2, if_false, List.cons.injEq, true_and, List.append_eq]
        rw [strLtL_append_iff as bs c d (by simpa using h)]

theorem strLtL_cons_same (c : Char) (a b : List Char) :
    strLtL (c :: a) (c :: b) = strLtL a b := by
  simp [strLtL]

/-- Decimal digit character. -/
def digitChar : Nat → Char
  | 0 => '0'
  | 1 => '1'
  | 2 => '2'
  | 3 => '3'
  | 4 => '4'
  | 5 => '5'
  | 6 => '6'
  | 7 => '7'
  | 8 => '8'
  | 9 => '9'
  | _ => '0'

/-- Two-digit zero-padded decimal rendering of a value below 100. -/
def pad2 (n : Nat) : List Char := [digitChar (n / 10), digitChar (n % 10)]

/-- Four-digit zero-padded decimal rendering of a value below 10000. -/
def pad4 (n : Nat) : List Char := pad2 (n / 100) ++ pad2 (n % 100)

set_option maxRecDepth 4000

theorem pad2_lt_all : ∀ i < 100, ∀ j < 100, (strLtL (pad2 i) (pad2 j) = true ↔ i < j) := by
  decide

theorem pad2_inj_all : ∀ i < 100, ∀ j < 100, (pad2 i = pad2 j ↔ i = j) := by
  decide

theorem pad4_lt_iff (i j : Nat) (hi : i < 10000) (hj : j < 10000) :
    strLtL (pad4 i) (pad4 j) = true ↔ i < j := by
  unfold pad4
  rw [strLtL_append_iff _ _ _ _ (by rfl)]
  rw [pad2_lt_all (i / 100) (by omega) (j / 100) (by omega)]
  rw [pad2_inj_all (i / 100) (by omega) (j / 100) (by omega)]
  rw [pad2_lt_all (i % 100) (by omega) (j % 100) (by omega)]
  omega

theorem pad4_inj (i j : Nat) (hi : i < 10000) (hj : j < 10000) :
    pad4 i = pad4 j ↔ i = j := by
  unfold pad4
  constructor
  · intro h
    rcases List.append_inj h rfl with ⟨h1, h2⟩
    have e1 := (pad2_inj_all (i / 100) (by omega) (j / 100) (by omega)).1 h1
    have e2 := (pad2_inj_all (i % 100) (by omega) (j % 100) (by omega)).1 h2
    omega
  · intro h
    rw [h]

theorem strLtL_pad4_append (i j : Nat) (c d : List Char) (hi : i < 10000)
    (hj : j < 10000) :
    (strLtL (pad4 i ++ c) (pad4 j ++ d) = true ↔
      (i < j ∨ (i = j ∧ strLtL c d = true))) := by
  rw [strLtL_append_iff _ _ _ _ (by rfl), pad4_lt_iff i j hi hj, pad4_inj i j hi hj]

theorem strLtL_pad2_append (i j : Nat) (c d : List Char) (hi : i < 100) (hj : j < 100) :
    (strLtL (pad2 i ++ c) (pad2 j ++ d) = true ↔
      (i < j ∨ (i = j ∧ strLtL c d = true))) := by
  rw [strLtL_append_iff _ _ _ _ (by rfl), pad2_lt_all i hi j hj, pad2_inj_all i hi j hj]

/-- A calendar instant with the fields an RFC3339 UTC timestamp renders. -/
structure DateTimeUTC where
  year : Nat
  month : Nat
  day : Nat
  hour : Nat
  minute : Nat
  second : Nat
deriving DecidableEq, Repr

/-- Field bounds under which the fixed-width rendering is faithful. -/
def ValidDT (d : DateTimeUTC) : Prop :=
  d.year < 10000 ∧ d.month < 100 ∧ d.day < 100 ∧ d.hour < 100 ∧ d.minute < 100 ∧
    d.second < 100

instance (d : DateTimeUTC) : Decidable (ValidDT d) := by
  unfold ValidDT; infer_instance

/-- Chronological order of two calendar instants. -/
def dtLt (a b : DateTimeUTC) : Prop :=
  a.year < b.year ∨ (a.year = b.year ∧
    (a.month < b.month ∨ (a.month = b.month ∧
      (a.day < b.day ∨ (a.day = b.day ∧
        (a.hour < b.hour ∨ (a.hour = b.hour ∧
          (a.minute < b.minute ∨ (a.minute = b.minute ∧
            a.second < b.second)))))))))

instance (a b : DateTimeUTC) : Decidable (dtLt a b) := by
  unfold dtLt; infer_instance

/-- Character list of the canonical RFC3339 rendering with the uniform
+00:00 offset, as chrono to_rfc3339 emits for UTC instants. -/
def fmtL (d : DateTimeUTC) : List Char :=
  pad4 d.year ++ '-' :: (pad2 d.month ++ '-' :: (pad2 d.day ++ 'T' ::
    (pad2 d.hour ++ ':' :: (pad2 d.minute ++ ':' ::
      (pad2 d.second ++ "+00:00".data)))))

/-- Canonical RFC3339 UTC rendering as a string. -/
def fmtRfc3339 (d : DateTimeUTC) : String := String.mk (fmtL d)

/-- On canonically rendered RFC3339 UTC timestamps, the raw string
comparison the SQL filters use coincides with chronological order. -/
theorem fmt_lt_iff (a b : DateTimeUTC) (ha : ValidDT a) (hb : ValidDT b) :
    (strLt (fmtRfc3339 a) (fmtRfc3339 b) = true ↔ dtLt a b) := by
  obtain ⟨ha1, ha2, ha3, ha4, ha5, ha6⟩ := ha
  obtain ⟨hb1, hb2, hb3, hb4, hb5, hb6⟩ := hb
  show strLtL (fmtL a) (fmtL b) = true ↔ _
  unfold fmtL
  rw [strLtL_pad4_append _ _ _ _ ha1 hb1, strLtL_cons_same,
    strLtL_pad2_append _ _ _ _ ha2 hb2, strLtL_cons_same,
    strLtL_pad2_append _ _ _ _ ha3 hb3, strLtL_cons_same,
    strLtL_pad2_append _ _ _ _ ha4 hb4, strLtL_cons_same,
    strLtL_pad2_append _ _ _ _ ha5 hb5, strLtL_cons_same,
    strLtL_pad2_append _ _ _ _ ha6 hb6, strLtL_irrefl]
  unfold dtLt
  simp

/-- Conjunction proved for claim C9.  The export filter, the export
ordering and the retention selection act on the stored timestamp text by
raw lexicographic comparison against the rendered server cutoff string;
on canonically rendered RFC3339 UTC timestamps (uniform offset) that
comparison coincides with chronological order; and a record denoting an
old instant in any other format is governed by the raw string order: in
the concrete divergence below the non-RFC3339 rendering of an instant is
neither exported nor selected for deletion while the RFC3339 rendering
of the same instant is both. -/
def StringOrderSpec : Prop :=
  (∀ rows last_id cutoff_str e, e ∈ get_logs_for_download rows last_id cutoff_str →
    strLt e.timestamp cutoff_str = true) ∧
  (∀ rows last_id cutoff_str,
    List.Pairwise (fun a b => strLt a.timestamp b.timestamp = true ∨ a.timestamp = b.timestamp)
      (get_logs_for_download rows last_id cutoff_str)) ∧
  (∀ rows cutoff_str i, i ∈ old_log_ids rows cutoff_str →
    ∃ r ∈ rows, r.id = i ∧ strLt r.timestamp cutoff_str = true) ∧
  (∀ rows cutoff_str (r : LogRow), (rows.map LogRow.id).Nodup → r ∈ rows →
    strLt r.timestamp cutoff_str = false → r ∈ delete_old_logs rows cutoff_str) ∧
  (∀ a b, ValidDT a → ValidDT b →
    (strLt (fmtRfc3339 a) (fmtRfc3339 b) = true ↔ dtLt a b)) ∧
  (dtLt ⟨1999, 12, 31, 23, 59, 59⟩ ⟨2026, 1, 1, 0, 0, 0⟩ ∧
    downloadSel 0 (fmtRfc3339 ⟨2026, 1, 1, 0, 0, 0⟩)
      ⟨1, "31/12/1999 23:59:59", 7, "m"⟩ = false ∧
    downloadSel 0 (fmtRfc3339 ⟨2026, 1, 1, 0, 0, 0⟩)
      ⟨2, fmtRfc3339 ⟨1999, 12, 31, 23, 59, 59⟩, 7, "m"⟩ = true ∧
    old_log_ids
        [⟨1, "31/12/1999 23:59:59", 7, "m"⟩,
         ⟨2, fmtRfc3339 ⟨1999, 12, 31, 23, 59, 59⟩, 7, "m"⟩]
        (fmtRfc3339 ⟨2026, 1, 1, 0, 0, 0⟩) = [2])

/-- C9: all three timestamp uses (export cutoff filter, export ordering,
retention selection) compare the stored timestamp text lexicographically
against an RFC3339-formatted server string; the comparison agrees with
chronological order on uniformly rendered RFC3339 timestamps, and
records with timestamps in any other format are selected and ordered by
the raw string comparison, which can diverge from chronology. -/
theorem c9_lexicographic_timestamps : StringOrderSpec := by
  refine ⟨?_, ?_, ?_, ?_, fmt_lt_iff, by decide⟩
  · intro rows last_id cutoff_str e he
    unfold get_logs_for_download at he
    rcases List.mem_map.1 he with ⟨r, hr, rfl⟩
    have hr1 : r ∈ (rows.filter (downloadSel last_id cutoff_str)).mergeSort downloadLe :=
      (List.take_sublist _ _).mem hr
    have hr2 : r ∈ rows.filter (downloadSel last_id cutoff_str) :=
      (List.mergeSort_perm _ _).mem_iff.1 hr1
    have := (List.mem_filter.1 hr2).2
    unfold downloadSel at this
    simp only [Bool.and_eq_true, decide_eq_true_eq] at this
    exact this.2
  · intro rows last_id cutoff_str
    have hs := List.sorted_mergeSort downloadLe_trans downloadLe_total
      (rows.filter (downloadSel last_id cutoff_str))
    have ht := hs.sublist (List.take_sublist MAX_LOG_ITEMS_PER_DOWNLOAD _)
    unfold get_logs_for_download
    refine List.pairwise_map.2 (ht.imp ?_)
    intro a b hab
    rcases downloadLe_cases a b hab with h | h
    · exact Or.inl h
    · exact Or.inr h.1
  · intro rows cutoff_str i hi
    rcases List.mem_map.1 hi with ⟨r, hr, rfl⟩
    have hr1 : r ∈ rows.filter (fun x => strLt x.timestamp cutoff_str) :=
      (List.take_sublist _ _).mem hr
    rcases List.mem_filter.1 hr1 with ⟨hr2, hr3⟩
    exact ⟨r, hr2, rfl, hr3⟩
  · intro rows cutoff_str r hnd hr hfalse
    refine List.mem_filter.2 ⟨hr, ?_⟩
    rw [Bool.not_eq_true']
    cases hb : (old_log_ids rows cutoff_str).contains r.id
    · rfl
    · exfalso
      have hmem : r.id ∈ old_log_ids rows cutoff_str := by simpa using hb
      rcases List.mem_map.1 hmem with ⟨s, hs, hsid⟩
      have hs1 : s ∈ rows.filter (fun x => strLt x.timestamp cutoff_str) :=
        (List.take_sublist _ _).mem hs
      rcases List.mem_filter.1 hs1 with ⟨hs2, hs3⟩
      have hsr : s = r := log_id_unique rows hnd s r hs2 hr hsid
      rw [hsr, hfalse] at hs3
      exact Bool.false_ne_true hs3

end TelemetryHub
